import Mathlib

/-!
Shallow embedding of the workout engine of `src/js/planGenerator.js`
(the `workoutEngine` object) and verification of its specification.

Modelling conventions:
* JS numbers that hold weights or averages are modelled as `ℚ`
  (all arithmetic involved is exact decimal/rational arithmetic,
  far below any floating-point precision boundary).
* Nullable JS numbers are modelled as `Option`; `none` models `null`.
  The `rir` field of a logged set is special: the app stores a number,
  the empty string `''` (its absent marker) or — nowhere in practice —
  `null`, and the engine distinguishes `''` from `null`, so that field
  gets a dedicated three-state type `RirField`.
* JS falsiness of a numeric field (`!x`, `x || d`) is modelled
  explicitly: `0` and `none` are falsy.
* Mutation is modelled by returning the updated value.
-/

namespace Progression

/-- The JS value held by a set's `rir` field. The event handlers only
ever write a parsed number or the empty string: `addSet` initialises
`rir: ''` and the rep/RIR input parser stores `''` when no RIR is
typed. `null` is a distinct value (never written by the app) that the
recommendation guard tests for; the two absent markers behave
differently there, so both are represented. -/
inductive RirField where
  | num (r : ℕ)
  | null
  | empty
deriving Repr, DecidableEq

/-- JS numeric coercion of the field, as in the subtraction
`rir - targetRIR`: a number is itself; both `''` and `null` coerce
to 0. -/
def RirField.toNumber : RirField → ℕ
  | .num r => r
  | .null => 0
  | .empty => 0

/-- A logged set, as stored in `exercise.sets` by the event handlers:
`weight` (number), `reps` (number), `rir` (number, `''` or `null`). -/
structure LoggedSet where
  weight : ℚ
  reps : ℕ
  rir : RirField
deriving Repr, DecidableEq

/-- An `ExercisePlanEntry` as built by `_selectExercisesForMuscleGroup`
and mutated by the engine. `exType` embeds the JS field `type`. -/
structure ExercisePlanEntry where
  exerciseId : String
  name : String
  muscle : String
  exType : String
  targetSets : ℕ
  targetReps : ℕ
  targetRIR : Option ℕ
  targetLoad : Option ℚ
  sets : List LoggedSet
  stallCount : ℕ
  note : String
deriving Repr, DecidableEq

/-- A day's workout (`dayObject` in `_buildWeekTemplate`, with the
`completed` flag added by `_createFullMesocycle`). -/
structure DayWorkout where
  name : String
  exercises : List ExercisePlanEntry
  completed : Bool
deriving Repr, DecidableEq

/-- The JS idiom `targetRIR || 3`: `null`/`undefined` and `0` are falsy,
so an unset target RIR and a target RIR of `0` both yield `3`. -/
def effTargetRIR (t : Option ℕ) : ℕ :=
  match t with
  | none => 3
  | some k => if k = 0 then 3 else k

/-- `sets.reduce((max, set) => ((set.weight || 0) > (max.weight || 0) ? set : max), { weight: 0 })`:
the largest weight among the sets, starting from `0`. -/
def topSetWeight (sets : List LoggedSet) : ℚ :=
  sets.foldl (fun m s => if s.weight > m then s.weight else m) 0

/-- The filter `s.rir !== null && s.rir !== '' && s.weight > 0` in
`calculateNextWorkoutProgression`: this filter excludes both absent
markers. -/
def setsWithRIR (sets : List LoggedSet) : List LoggedSet :=
  sets.filter (fun s =>
    s.rir ≠ RirField.null ∧ s.rir ≠ RirField.empty ∧ s.weight > 0)

/-- `averageRIR`: the mean recorded RIR over `setsWithRIR`. -/
def averageRIR (sets : List LoggedSet) : ℚ :=
  ((setsWithRIR sets).map (fun s => ((s.rir.toNumber : ℕ) : ℚ))).sum
    / ((setsWithRIR sets).length : ℚ)

/-- The body of the `forEach` in `calculateNextWorkoutProgression`
for one matched pair: produces the updated next-week entry from the
completed entry `cEx` and the current next-week entry `nEx`.
`inc` is `state.settings.weightIncrement`. -/
def progressExercise (inc : ℚ) (cEx nEx : ExercisePlanEntry) : ExercisePlanEntry :=
  if cEx.sets = [] then
    -- `nextWeekEx.targetLoad = completedEx.targetLoad || null` (0 is falsy)
    { nEx with
      targetLoad := match cEx.targetLoad with
        | some w => if w = 0 then none else some w
        | none => none,
      targetReps := cEx.targetReps }
  else if setsWithRIR cEx.sets = [] then
    let top := topSetWeight cEx.sets
    let allSetsSuccessful := cEx.sets.all (fun s => s.reps ≥ cEx.targetReps)
    { nEx with
      targetLoad := some (if allSetsSuccessful then top + inc else top),
      targetReps := cEx.targetReps }
  else
    let avg := averageRIR cEx.sets
    let t : ℚ := (effTargetRIR cEx.targetRIR : ℚ)
    let top := topSetWeight cEx.sets
    if avg > t + 1 then
      -- too easy: increase weight
      { nEx with targetLoad := some (top + inc), stallCount := 0 }
    else if avg < t - 1 then
      -- too hard: hold weight, count a stall
      { nEx with targetLoad := some top, stallCount := nEx.stallCount + 1 }
    else
      -- on target
      if nEx.targetReps < 12 then
        { nEx with
          targetReps := (if nEx.targetReps = 0 then 8 else nEx.targetReps) + 1,
          targetLoad := some top,
          stallCount := 0 }
      else
        { nEx with targetLoad := some (top + inc), targetReps := 8, stallCount := 0 }

/-- One step of `calculateNextWorkoutProgression`'s `forEach`: the first
entry of `next` whose `exerciseId` matches `cEx.exerciseId` (the JS
`find`) is replaced by its progressed version; other entries are kept. -/
def updateFirstMatch (inc : ℚ) (cEx : ExercisePlanEntry) :
    List ExercisePlanEntry → List ExercisePlanEntry
  | [] => []
  | nEx :: rest =>
      if nEx.exerciseId = cEx.exerciseId then
        progressExercise inc cEx nEx :: rest
      else
        nEx :: updateFirstMatch inc cEx rest

/-- `calculateNextWorkoutProgression(completedWorkout, nextWorkout)`:
folds the per-exercise update over the completed workout's exercises. -/
def calculateNextWorkoutProgression (inc : ℚ) (completed next : DayWorkout) :
    DayWorkout :=
  { next with
    exercises := completed.exercises.foldl
      (fun acc cEx => updateFirstMatch inc cEx acc) next.exercises }

/-- The possible outcomes of `generateIntraWorkoutRecommendation`,
one constructor per distinct return string (carrying the suggested
weight where the string interpolates one). -/
inductive Recommendation where
  | promptComplete
  | increaseTo (w : ℚ)
  | dropForForm
  | decreaseTo (w : ℚ)
  | holdAt (w : ℚ)
  | noRecommendation
deriving Repr, DecidableEq

/-- `generateIntraWorkoutRecommendation(completedSet, exercise)`.
The guard is
`!completedSet.reps || !completedSet.weight || completedSet.rir === null`:
it catches only the `null` rir, not the empty-string marker the app
actually writes for an absent RIR; an empty string falls through and
coerces to 0 in the `diff` subtraction. -/
def generateIntraWorkoutRecommendation (inc : ℚ) (s : LoggedSet)
    (ex : ExercisePlanEntry) : Recommendation :=
  if s.reps = 0 ∨ s.weight = 0 ∨ s.rir = RirField.null then
    .promptComplete
  else
    let targetRIR : ℤ := (effTargetRIR ex.targetRIR : ℤ)
    let actualRIR : ℤ := ((s.rir.toNumber : ℕ) : ℤ)
    let diff : ℤ := actualRIR - targetRIR
    if diff > 1 then
      .increaseTo (s.weight + inc)
    else if diff < -1 then
      let newWeight := max 0 (s.weight - inc)
      if newWeight = 0 then .dropForForm else .decreaseTo newWeight
    else if |diff| ≤ 1 then
      .holdAt s.weight
    else
      .noRecommendation

/-- The per-exercise mutation of `adjustWorkoutForRecovery`:
`if (exercise.targetSets > 2) exercise.targetSets -= 1`. -/
def adjustExercise (e : ExercisePlanEntry) : ExercisePlanEntry :=
  if e.targetSets > 2 then { e with targetSets := e.targetSets - 1 } else e

/-- `adjustWorkoutForRecovery(sleep, stress)` restricted to its action on
the current day's workout (the state lookup merely locates that day).
Returns the updated day and the `adjustmentMade` flag the JS function
returns. -/
def adjustWorkoutForRecovery (sleep : ℚ) (stress : ℤ) (day : DayWorkout) :
    DayWorkout × Bool :=
  if sleep < 6 ∨ stress ≥ 7 then
    ({ day with exercises := day.exercises.map adjustExercise },
     day.exercises.any (fun e => e.targetSets > 2))
  else
    (day, false)

/-- `_getRirForWeek(week, totalWeeks)`. JS division is modelled in `ℚ`
(for `totalWeeks ≥ 2` the two agree exactly: the thresholds `0.25`,
`0.5`, `0.75` are dyadic and the quotient of small integers rounds to
the same side of each threshold). -/
def getRirForWeek (week totalWeeks : ℕ) : ℕ :=
  if week = totalWeeks then 4
  else
    let progress : ℚ := ((week : ℚ) - 1) / ((totalWeeks : ℚ) - 1)
    if progress < 1/4 then 3
    else if progress < 1/2 then 2
    else if progress < 3/4 then 1
    else 0

/-- An exercise of the catalog (`exercises.json` records as consumed by
`_selectExercisesForMuscleGroup` / `_findAlternativeExercise`).
`exType` embeds the JS field `type`. -/
structure CatalogExercise where
  name : String
  muscle : String
  exType : String
  equipment : List String
  alternatives : List String
deriving Repr, DecidableEq

/-- The user profile fields `generateNewMesocycle` reads from
`userSelections`. -/
structure UserSelections where
  trainingAge : String
  goal : String
  daysPerWeek : ℕ
  style : String
deriving Repr, DecidableEq

/-- A split as returned by `_getSplitForDays`: JS object key order is
insertion order, so `days` is an ordered association list. -/
structure Split where
  name : String
  days : List (String × List String)
  muscles : List String
deriving Repr, DecidableEq

/-- All eight muscle groups (identical in the three split templates). -/
def allMuscles : List String :=
  ["chest", "back", "quads", "hamstrings", "shoulders", "biceps", "triceps", "core"]

/-- `_getSplitForDays(days)`. -/
def getSplitForDays (days : ℕ) : Split :=
  if days ≤ 3 then
    { name := "Full Body",
      days := [("Full Body A", ["quads", "chest", "back", "shoulders"]),
               ("Full Body B", ["hamstrings", "back", "chest", "biceps", "triceps"]),
               ("Full Body C", ["quads", "shoulders", "back", "core"])],
      muscles := allMuscles }
  else if days = 4 then
    { name := "Upper/Lower",
      days := [("Upper A", ["chest", "back", "shoulders", "biceps", "triceps"]),
               ("Lower A", ["quads", "hamstrings", "core"]),
               ("Upper B", ["back", "chest", "shoulders", "triceps", "biceps"]),
               ("Lower B", ["hamstrings", "quads", "core"])],
      muscles := allMuscles }
  else
    { name := "Push/Pull/Legs",
      days := [("Push", ["chest", "shoulders", "triceps"]),
               ("Pull", ["back", "biceps"]),
               ("Legs", ["quads", "hamstrings", "core"])],
      muscles := allMuscles }

/-- `VOLUME_LANDMARKS[trainingAge] || VOLUME_LANDMARKS.beginner`,
projected to the `mev` field (the only landmark `generateNewMesocycle`
uses). -/
def mevForTrainingAge (trainingAge : String) : ℕ :=
  if trainingAge = "novice" then 6
  else if trainingAge = "beginner" then 8
  else if trainingAge = "intermediate" then 10
  else if trainingAge = "advanced" then 12
  else 8

/-- `Math.round(targetVolume * 0.75)` for a natural `targetVolume`
(JS rounds halves up). -/
def roundThreeQuarters (v : ℕ) : ℕ := (3 * v + 2) / 4

/-- The remaining-volume record: an ordered association list from muscle
name to remaining weekly sets (an integer, since the JS code can drive
it below zero by repeated `-= 3`). -/
def VolumeMap : Type := List (String × ℤ)

/-- `remainingVolume[muscle]`: `none` models JS `undefined`. -/
def volGet (vol : VolumeMap) (m : String) : Option ℤ :=
  (vol.find? (fun p => p.1 = m)).map (fun p => p.2)

/-- `remainingVolume[muscle] -= 3` (only ever executed on present keys). -/
def volSub3 (vol : VolumeMap) (m : String) : VolumeMap :=
  vol.map (fun p => if p.1 = m then (p.1, p.2 - 3) else p)

/-- `remainingVolume[muscle] > 0` (false on `undefined`). -/
def volPos (vol : VolumeMap) (m : String) : Bool :=
  match volGet vol m with
  | some v => decide (v > 0)
  | none => false

/-- `_calculateInitialWeeklyVolume(musclesInSplit, targetVolume)`:
every muscle gets `targetVolume`, then `biceps`, `triceps` and `core`
are scaled to `round(0.75 * targetVolume)` when present and nonzero. -/
def calculateInitialWeeklyVolume (musclesInSplit : List String)
    (targetVolume : ℕ) : VolumeMap :=
  let base : VolumeMap := musclesInSplit.map (fun m => (m, (targetVolume : ℤ)))
  let adjust := fun (vol : VolumeMap) (m : String) =>
    match volGet vol m with
    | some v =>
        if v ≠ 0 then
          vol.map (fun p =>
            if p.1 = m then (p.1, (roundThreeQuarters targetVolume : ℤ)) else p)
        else vol
    | none => vol
  adjust (adjust (adjust base "biceps") "triceps") "core"

/-- `_getEquipmentFilter(style)`. -/
def getEquipmentFilter (style : String) : List String :=
  if style = "gym" then
    ["barbell", "dumbbell", "machine", "cable", "rack", "bench", "bodyweight", "pullup-bar"]
  else if style = "home" then
    ["bodyweight", "dumbbell", "pullup-bar"]
  else
    ["barbell", "dumbbell", "machine", "cable", "rack", "bench", "bodyweight", "pullup-bar"]

/-- `str.toLowerCase()`: character-wise lowercasing (the catalog data
is ASCII, where JS `toLowerCase` is exactly character-wise). -/
def toLowerStr (s : String) : String :=
  String.mk (s.data.map Char.toLower)

/-- The regex replacement `name.replace(/\s+/g, '_')`: each maximal run
of whitespace becomes a single underscore. `prevWS` records whether the
previous character belonged to a whitespace run. -/
def squashWhitespace : Bool → List Char → List Char
  | _, [] => []
  | prevWS, c :: cs =>
      if c.isWhitespace then
        if prevWS then squashWhitespace true cs
        else '_' :: squashWhitespace true cs
      else c :: squashWhitespace false cs

/-- The identifier derivation `` `ex_${ex.name.replace(/\s+/g, '_')}` ``:
prefix `ex_`, whitespace runs replaced by underscores, case preserved. -/
def canonicalId (name : String) : String :=
  "ex_" ++ String.mk (squashWhitespace false name.data)

/-- Modelled from the spec (§ exercise selection): the spec's statement
of the identifier derivation, "lowercasing-and-underscoring the exercise
name" with the fixed prefix — for comparison against `canonicalId`. -/
def specLowercaseId (name : String) : String :=
  "ex_" ++ String.mk (squashWhitespace false (toLowerStr name).data)

/-- The fresh `ExercisePlanEntry` built for a selected catalog
exercise in `_selectExercisesForMuscleGroup`. -/
def toPlanEntry (ex : CatalogExercise) : ExercisePlanEntry :=
  { exerciseId := canonicalId ex.name
    name := ex.name
    muscle := ex.muscle
    exType := ex.exType
    targetSets := 3
    targetReps := 8
    targetRIR := some 3
    targetLoad := none
    sets := []
    stallCount := 0
    note := "" }

/-- The call-indexed reordering standing for
`exercisePool.sort(() => 0.5 - Math.random())`: the `n`-th call to the
selector reorders its pool by `shuffle n`. Theorems quantify over
`shuffle`, so they hold for every outcome of the random sort. -/
def Shuffle : Type := ℕ → List CatalogExercise → List CatalogExercise

/-- `_selectExercisesForMuscleGroup(allExercises, muscle, equipmentFilter, type, count)`
at shuffle-call index `n` (the engine always passes `count = 1`). -/
def selectExercisesForMuscleGroup (shuffle : Shuffle) (n : ℕ)
    (allExercises : List CatalogExercise) (muscle : String)
    (equipmentFilter : List String) (ty : String) (count : ℕ) :
    List ExercisePlanEntry :=
  let pool := allExercises.filter (fun ex =>
    toLowerStr ex.muscle = toLowerStr muscle ∧ ex.exType = ty ∧
    (ex.equipment.contains "bodyweight" ∨
      ex.equipment.any (fun e => equipmentFilter.contains e)))
  ((shuffle n pool).take count).map toPlanEntry

/-- The `while (remainingVolume[muscle] > 0)` secondary-selection loop of
`_buildWeekTemplate`, with explicit fuel (each iteration subtracts 3
from a finite remaining volume, so `v.toNat` iterations suffice).
Returns the appended entries, the updated volume map and the next
shuffle-call index. -/
def secondaryLoop (shuffle : Shuffle) (allExercises : List CatalogExercise)
    (equipmentFilter : List String) (muscle : String) :
    ℕ → VolumeMap → ℕ → List ExercisePlanEntry × VolumeMap × ℕ
  | 0, vol, n => ([], vol, n)
  | fuel + 1, vol, n =>
      if volPos vol muscle then
        let sel := selectExercisesForMuscleGroup shuffle n allExercises muscle
          equipmentFilter "Secondary" 1
        if sel = [] then ([], vol, n + 1)
        else
          let next := secondaryLoop shuffle allExercises equipmentFilter muscle
            fuel (volSub3 vol muscle) (n + 1)
          (sel ++ next.1, next.2.1, next.2.2)
      else ([], vol, n)

/-- Fuel sufficient for `secondaryLoop`: the remaining volume for the
muscle, clamped to `ℕ` (each iteration subtracts 3 ≥ 1). -/
def secondaryFuel (vol : VolumeMap) (m : String) : ℕ :=
  ((volGet vol m).getD 0).toNat

/-- The primary-selection pass of `_buildWeekTemplate` over one day's
muscles: for each muscle with positive remaining volume, select one
Primary exercise; on success append it and subtract 3. -/
def primaryPass (shuffle : Shuffle) (allExercises : List CatalogExercise)
    (equipmentFilter : List String) :
    List String → VolumeMap → ℕ → List ExercisePlanEntry × VolumeMap × ℕ
  | [], vol, n => ([], vol, n)
  | m :: ms, vol, n =>
      if volPos vol m then
        let sel := selectExercisesForMuscleGroup shuffle n allExercises m
          equipmentFilter "Primary" 1
        if sel = [] then primaryPass shuffle allExercises equipmentFilter ms vol (n + 1)
        else
          let rest := primaryPass shuffle allExercises equipmentFilter ms
            (volSub3 vol m) (n + 1)
          (sel ++ rest.1, rest.2.1, rest.2.2)
      else primaryPass shuffle allExercises equipmentFilter ms vol n

/-- The secondary-selection pass over one day's muscles. -/
def secondaryPass (shuffle : Shuffle) (allExercises : List CatalogExercise)
    (equipmentFilter : List String) :
    List String → VolumeMap → ℕ → List ExercisePlanEntry × VolumeMap × ℕ
  | [], vol, n => ([], vol, n)
  | m :: ms, vol, n =>
      let loop := secondaryLoop shuffle allExercises equipmentFilter m
        (secondaryFuel vol m) vol n
      let rest := secondaryPass shuffle allExercises equipmentFilter ms
        loop.2.1 loop.2.2
      (loop.1 ++ rest.1, rest.2.1, rest.2.2)

/-- One `dayObject` of `_buildWeekTemplate` plus the threaded state. -/
def buildDay (shuffle : Shuffle) (allExercises : List CatalogExercise)
    (equipmentFilter : List String) (dayLabel : String)
    (dayMuscles : List String) (vol : VolumeMap) (n : ℕ) :
    DayWorkout × VolumeMap × ℕ :=
  let prim := primaryPass shuffle allExercises equipmentFilter dayMuscles vol n
  let sec := secondaryPass shuffle allExercises equipmentFilter dayMuscles
    prim.2.1 prim.2.2
  ({ name := dayLabel, exercises := prim.1 ++ sec.1, completed := false },
   sec.2.1, sec.2.2)

/-- The day loop of `_buildWeekTemplate` (the remaining-volume record is
shared across days). The `completed` flag is set by
`_createFullMesocycle`; holding it `false` in the template is harmless
since every week copy sets it. -/
def buildDays (shuffle : Shuffle) (allExercises : List CatalogExercise)
    (equipmentFilter : List String) :
    List (String × List String) → VolumeMap → ℕ → List DayWorkout
  | [], _, _ => []
  | (label, muscles) :: rest, vol, n =>
      let day := buildDay shuffle allExercises equipmentFilter label muscles vol n
      day.1 :: buildDays shuffle allExercises equipmentFilter rest day.2.1 day.2.2

/-- `_buildWeekTemplate(split, weeklyVolumeTargets, allExercises, equipmentStyle)`. -/
def buildWeekTemplate (shuffle : Shuffle) (split : Split)
    (weeklyVolumeTargets : VolumeMap) (allExercises : List CatalogExercise)
    (equipmentStyle : String) : List DayWorkout :=
  buildDays shuffle allExercises (getEquipmentFilter equipmentStyle)
    split.days weeklyVolumeTargets 0

/-- The per-exercise adjustment of `_createFullMesocycle`: set the
week's target RIR and, on the deload week, `Math.ceil(targetSets / 2)`. -/
def mesocycleExercise (isDeload : Bool) (rir : ℕ) (ex : ExercisePlanEntry) :
    ExercisePlanEntry :=
  { ex with
    targetRIR := some rir,
    targetSets := if isDeload then (ex.targetSets + 1) / 2 else ex.targetSets }

/-- One week's copy of a template day in `_createFullMesocycle`. -/
def mesocycleDay (isDeload : Bool) (rir : ℕ) (d : DayWorkout) : DayWorkout :=
  { d with
    completed := false,
    exercises := d.exercises.map (mesocycleExercise isDeload rir) }

/-- `_createFullMesocycle(weekTemplate, durationWeeks)`: the JS object
`weeks` keyed `1..durationWeeks` (days keyed `1..template.length`) is
embedded as a list of lists, index `i` holding week `i + 1`. -/
def createFullMesocycle (weekTemplate : List DayWorkout) (durationWeeks : ℕ) :
    List (List DayWorkout) :=
  (List.range durationWeeks).map (fun i =>
    let w := i + 1
    weekTemplate.map
      (mesocycleDay (w = durationWeeks) (getRirForWeek w durationWeeks)))

/-- `generateNewMesocycle(userSelections, allExercises, durationWeeks)`. -/
def generateNewMesocycle (shuffle : Shuffle) (sel : UserSelections)
    (allExercises : List CatalogExercise) (durationWeeks : ℕ) :
    List (List DayWorkout) :=
  let split := getSplitForDays sel.daysPerWeek
  let mev := mevForTrainingAge sel.trainingAge
  let weeklyVolumeTargets := calculateInitialWeeklyVolume split.muscles mev
  let weekTemplate := buildWeekTemplate shuffle split weeklyVolumeTargets
    allExercises sel.style
  createFullMesocycle weekTemplate durationWeeks

/-- The day labels of one week. -/
def weekDayLabels (w : List DayWorkout) : List String :=
  w.map (fun d => d.name)

/-- The ordered exercise identifiers of each day of one week. -/
def weekDayExerciseIds (w : List DayWorkout) : List (List String) :=
  w.map (fun d => d.exercises.map (fun e => e.exerciseId))

/-- The exercise at week index `wi`, day index `di`, exercise index `ei`
of a generated mesocycle (all indices zero-based). -/
def getEx (weeks : List (List DayWorkout)) (wi di ei : ℕ) :
    Option ExercisePlanEntry :=
  ((weeks.get? wi).bind (fun w => w.get? di)).bind
    (fun d => d.exercises.get? ei)

/-! ## Concrete fixtures used for witnesses and counterexamples -/

/-- The identity reordering: one possible outcome of the random sort. -/
def idShuffle : Shuffle := fun _ l => l

/-- A one-exercise catalog. -/
def benchPress : CatalogExercise :=
  { name := "Bench Press", muscle := "chest", exType := "Primary",
    equipment := ["barbell"], alternatives := [] }

/-- A concrete user profile (5 training days selects the
push/pull/legs split). -/
def gymUser : UserSelections :=
  { trainingAge := "beginner", goal := "hypertrophy", daysPerWeek := 5,
    style := "gym" }

/-- A plan entry with target RIR 3, as the generator first produces it. -/
def benchEntry : ExercisePlanEntry := toPlanEntry benchPress

/-- A completed exercise whose single set hit the target RIR exactly
(weight 100, 8 reps, RIR 3, target RIR 3). -/
def completedOnTarget : ExercisePlanEntry :=
  { benchEntry with targetLoad := some 50, sets := [⟨100, 8, RirField.num 3⟩] }

/-- A completed exercise whose single set came in two RIR below target
(weight 100, 8 reps, RIR 0, target RIR 3). -/
def completedTooHard : ExercisePlanEntry :=
  { benchEntry with sets := [⟨100, 8, RirField.num 0⟩] }

/-- A next-week entry before progression: target load 50, 8 target
reps, stall count 5. -/
def nextWeekEntry : ExercisePlanEntry :=
  { benchEntry with targetLoad := some 50, stallCount := 5 }

/-! ## Helper lemmas -/

/-- The RIR bucket `p<1/4 → 3, p<1/2 → 2, p<3/4 → 1, else 0` is
antitone in the progress fraction. -/
theorem rirBucket_antitone {p q : ℚ} (h : p ≤ q) :
    (if q < 1/4 then (3 : ℕ) else if q < 1/2 then 2 else if q < 3/4 then 1 else 0) ≤
    (if p < 1/4 then (3 : ℕ) else if p < 1/2 then 2 else if p < 3/4 then 1 else 0) := by
  split_ifs <;> first | omega | (exfalso; linarith)

/-- The mean recorded RIR is nonnegative. -/
theorem averageRIR_nonneg (sets : List LoggedSet) : 0 ≤ averageRIR sets := by
  unfold averageRIR
  apply div_nonneg
  · apply List.sum_nonneg
    intro x hx
    obtain ⟨s, _, rfl⟩ := List.mem_map.mp hx
    positivity
  · positivity

/-- If every logged set has positive weight and a recorded RIR within
`targetRIR ± 1`, then no set is filtered out and the mean RIR
lies within `targetRIR ± 1`. -/
theorem averageRIR_bounds {sets : List LoggedSet} {t : ℕ}
    (hne : sets ≠ [])
    (hall : ∀ s ∈ sets, 0 < s.weight ∧ ∃ r, s.rir = RirField.num r ∧
      (t : ℤ) - 1 ≤ (r : ℤ) ∧ (r : ℤ) ≤ (t : ℤ) + 1) :
    setsWithRIR sets = sets ∧
    (t : ℚ) - 1 ≤ averageRIR sets ∧ averageRIR sets ≤ (t : ℚ) + 1 := by
  have hfil : setsWithRIR sets = sets := by
    apply List.filter_eq_self.mpr
    intro s hs
    obtain ⟨hw, r, hr, _, _⟩ := hall s hs
    simp only [decide_eq_true_eq]
    exact ⟨by simp [hr], by simp [hr], hw⟩
  refine ⟨hfil, ?_, ?_⟩ <;>
  · unfold averageRIR
    rw [hfil]
    have hlen : (0 : ℚ) < ((sets.length : ℕ) : ℚ) := by
      have := List.length_pos.mpr hne
      exact_mod_cast this
    have hmem : ∀ x ∈ sets.map (fun s => ((s.rir.toNumber : ℕ) : ℚ)),
        (t : ℚ) - 1 ≤ x ∧ x ≤ (t : ℚ) + 1 := by
      intro x hx
      obtain ⟨s, hs, rfl⟩ := List.mem_map.mp hx
      obtain ⟨_, r, hr, hlo, hhi⟩ := hall s hs
      rw [hr]
      constructor
      · have : ((t : ℚ) - 1) ≤ (r : ℚ) := by exact_mod_cast hlo
        simpa [RirField.toNumber] using this
      · have : (r : ℚ) ≤ (t : ℚ) + 1 := by exact_mod_cast hhi
        simpa [RirField.toNumber] using this
    first
    | -- lower bound
      rw [le_div_iff hlen]
      have := List.card_nsmul_le_sum
        (sets.map (fun s => ((s.rir.toNumber : ℕ) : ℚ))) ((t : ℚ) - 1)
        (fun x hx => (hmem x hx).1)
      rw [nsmul_eq_mul, List.length_map] at this
      calc ((t : ℚ) - 1) * (sets.length : ℚ)
          = (sets.length : ℚ) * ((t : ℚ) - 1) := by ring
        _ ≤ _ := this
    | -- upper bound
      rw [div_le_iff hlen]
      have := List.sum_le_card_nsmul
        (sets.map (fun s => ((s.rir.toNumber : ℕ) : ℚ))) ((t : ℚ) + 1)
        (fun x hx => (hmem x hx).2)
      rw [nsmul_eq_mul, List.length_map] at this
      calc _ ≤ (sets.length : ℚ) * ((t : ℚ) + 1) := this
        _ = ((t : ℚ) + 1) * (sets.length : ℚ) := by ring

/-! ## C1 (corrected) -/

/-- C1 counterexample. The claim says the on-target branch "leaves its
targetLoad unchanged". Concrete input: the completed exercise logged one
set of 100 at RIR 3 with target RIR 3 (all sets within `targetRIR ± 1`),
and the next-week entry has `targetReps = 8 < 12` and `targetLoad = 50`.
`advance` rewrites the next-week `targetLoad` from 50 to the completed
top-set weight 100, so it is not left unchanged. -/
theorem c1_counterexample :
    nextWeekEntry.targetReps = 8 ∧
    nextWeekEntry.targetLoad = some 50 ∧
    completedOnTarget.sets = [⟨100, 8, RirField.num 3⟩] ∧
    completedOnTarget.targetRIR = some 3 ∧
    (progressExercise 5 completedOnTarget nextWeekEntry).targetLoad = some 100 := by
  refine ⟨rfl, rfl, rfl, rfl, ?_⟩
  have hall : ∀ s ∈ completedOnTarget.sets, 0 < s.weight ∧ ∃ r, s.rir = RirField.num r ∧
      ((3 : ℕ) : ℤ) - 1 ≤ (r : ℤ) ∧ (r : ℤ) ≤ ((3 : ℕ) : ℤ) + 1 := by
    intro s hs
    rw [show completedOnTarget.sets = [⟨100, 8, RirField.num 3⟩] from rfl] at hs
    rcases List.mem_singleton.mp hs with rfl
    exact ⟨by norm_num, 3, rfl, by decide, by decide⟩
  obtain ⟨hfil, hlo, hhi⟩ :=
    averageRIR_bounds (by decide : completedOnTarget.sets ≠ []) hall
  have htop : topSetWeight completedOnTarget.sets = 100 := by
    rw [show completedOnTarget.sets = [⟨100, 8, RirField.num 3⟩] from rfl]
    norm_num [topSetWeight]
  have hefft : ((effTargetRIR completedOnTarget.targetRIR : ℕ) : ℚ) =
      (((3 : ℕ) : ℕ) : ℚ) := rfl
  have key : progressExercise 5 completedOnTarget nextWeekEntry =
      { nextWeekEntry with
        targetReps := nextWeekEntry.targetReps + 1,
        targetLoad := some (topSetWeight completedOnTarget.sets),
        stallCount := 0 } := by
    unfold progressExercise
    rw [if_neg (by decide : ¬ completedOnTarget.sets = []), hfil,
      if_neg (by decide : ¬ completedOnTarget.sets = [])]
    simp only [hefft]
    rw [if_neg (not_lt.mpr hhi), if_neg (not_lt.mpr hlo),
      if_pos (by decide : nextWeekEntry.targetReps < 12),
      if_neg (by decide : ¬ nextWeekEntry.targetReps = 0)]
  rw [key, htop]

/-- C1 (amended): for a paired exercise whose logged sets all have
positive weight and a recorded RIR within `targetRIR ± 1` inclusive
(target RIR set and nonzero), and whose next-week `targetReps` is
between 1 and 11, `advance` increases `targetReps` by exactly 1,
sets `targetLoad` to the completed exercise's top-set weight (the load
is held, not left untouched), and resets `stallCount` to 0. -/
theorem c1_on_target_progression (inc : ℚ) (cEx nEx : ExercisePlanEntry)
    (t : ℕ) (ht : cEx.targetRIR = some t) (ht1 : 1 ≤ t)
    (hne : cEx.sets ≠ [])
    (hall : ∀ s ∈ cEx.sets, 0 < s.weight ∧ ∃ r, s.rir = RirField.num r ∧
      (t : ℤ) - 1 ≤ (r : ℤ) ∧ (r : ℤ) ≤ (t : ℤ) + 1)
    (hreps1 : 1 ≤ nEx.targetReps) (hreps12 : nEx.targetReps < 12) :
    (progressExercise inc cEx nEx).targetReps = nEx.targetReps + 1 ∧
    (progressExercise inc cEx nEx).targetLoad = some (topSetWeight cEx.sets) ∧
    (progressExercise inc cEx nEx).stallCount = 0 := by
  obtain ⟨hfil, hlo, hhi⟩ := averageRIR_bounds hne hall
  have hefft : ((effTargetRIR cEx.targetRIR : ℕ) : ℚ) = (t : ℚ) := by
    have htne : t ≠ 0 := by omega
    rw [ht]
    simp [effTargetRIR, htne]
  have key : progressExercise inc cEx nEx =
      { nEx with
        targetReps := nEx.targetReps + 1,
        targetLoad := some (topSetWeight cEx.sets),
        stallCount := 0 } := by
    unfold progressExercise
    rw [if_neg hne, hfil, if_neg hne]
    simp only [hefft]
    rw [if_neg (not_lt.mpr hhi), if_neg (not_lt.mpr hlo), if_pos hreps12,
      if_neg (by omega : ¬ nEx.targetReps = 0)]
  rw [key]
  exact ⟨rfl, rfl, rfl⟩

/-- C1 witness: the amended theorem applied to the concrete on-target
input of the counterexample. -/
theorem c1_witness :
    (progressExercise 5 completedOnTarget nextWeekEntry).targetReps =
      nextWeekEntry.targetReps + 1 ∧
    (progressExercise 5 completedOnTarget nextWeekEntry).targetLoad =
      some (topSetWeight completedOnTarget.sets) ∧
    (progressExercise 5 completedOnTarget nextWeekEntry).stallCount = 0 := by
  apply c1_on_target_progression 5 completedOnTarget nextWeekEntry 3 rfl
    (by decide) (by decide)
  · intro s hs
    rw [show completedOnTarget.sets = [⟨100, 8, RirField.num 3⟩] from rfl] at hs
    rcases List.mem_singleton.mp hs with rfl
    exact ⟨by norm_num, 3, rfl, by decide, by decide⟩
  · decide
  · decide

/-! ## C2 (confirmed) -/

/-- C2: for a paired exercise whose mean recorded RIR (over the sets
with a recorded RIR and positive weight) is more than 1 below the
target RIR, `advance` sets the next occurrence's `targetLoad` to the
completed exercise's top-set weight (no increase) and increments its
`stallCount` by exactly 1. -/
theorem c2_too_hard_progression (inc : ℚ) (cEx nEx : ExercisePlanEntry)
    (t : ℕ) (ht : cEx.targetRIR = some t)
    (hne : setsWithRIR cEx.sets ≠ [])
    (havg : averageRIR cEx.sets < (t : ℚ) - 1) :
    (progressExercise inc cEx nEx).targetLoad = some (topSetWeight cEx.sets) ∧
    (progressExercise inc cEx nEx).stallCount = nEx.stallCount + 1 := by
  have hsets : cEx.sets ≠ [] := by
    intro h
    apply hne
    rw [h]
    rfl
  have havg0 : (0 : ℚ) ≤ averageRIR cEx.sets := averageRIR_nonneg cEx.sets
  have htne : t ≠ 0 := by
    intro h
    rw [h] at havg
    push_cast at havg
    linarith
  have hefft : ((effTargetRIR cEx.targetRIR : ℕ) : ℚ) = (t : ℚ) := by
    rw [ht]
    simp [effTargetRIR, htne]
  have key : progressExercise inc cEx nEx =
      { nEx with
        targetLoad := some (topSetWeight cEx.sets),
        stallCount := nEx.stallCount + 1 } := by
    unfold progressExercise
    rw [if_neg hsets, if_neg hne]
    simp only [hefft]
    rw [if_neg (by linarith : ¬ (t : ℚ) + 1 < averageRIR cEx.sets),
      if_pos havg]
  rw [key]
  exact ⟨rfl, rfl⟩

/-- C2 witness: a completed exercise with one set at RIR 0 against
target RIR 3 (mean RIR two points below target). -/
theorem c2_witness :
    (progressExercise 5 completedTooHard nextWeekEntry).targetLoad =
      some (topSetWeight completedTooHard.sets) ∧
    (progressExercise 5 completedTooHard nextWeekEntry).stallCount =
      nextWeekEntry.stallCount + 1 := by
  apply c2_too_hard_progression 5 completedTooHard nextWeekEntry 3 rfl
  · show setsWithRIR completedTooHard.sets ≠ []
    rw [show completedTooHard.sets = [⟨100, 8, RirField.num 0⟩] from rfl]
    unfold setsWithRIR
    rw [List.filter_eq_self.mpr ?_]
    · decide
    · intro s hs
      rcases List.mem_singleton.mp hs with rfl
      simp only [decide_eq_true_eq]
      exact ⟨by simp, by simp, by norm_num⟩
  · show averageRIR completedTooHard.sets < ((3 : ℕ) : ℚ) - 1
    have hfil : setsWithRIR completedTooHard.sets = completedTooHard.sets := by
      apply List.filter_eq_self.mpr
      intro s hs
      rw [show completedTooHard.sets = [⟨100, 8, RirField.num 0⟩] from rfl] at hs
      rcases List.mem_singleton.mp hs with rfl
      simp only [decide_eq_true_eq]
      exact ⟨by simp, by simp, by norm_num⟩
    unfold averageRIR
    rw [hfil, show completedTooHard.sets = [⟨100, 8, RirField.num 0⟩] from rfl]
    norm_num [RirField.toNumber]

/-! ## C3 (confirmed) -/

/-- C3: for every `totalWeeks ≥ 2` and week in `1..totalWeeks`,
`_getRirForWeek` returns 4 on the final week, otherwise buckets the
progress fraction `p = (week-1)/(totalWeeks-1)` to
`p<0.25 → 3, p<0.5 → 2, p<0.75 → 1, else 0`; the result is
non-increasing in the week except for the reset to 4 on the final
week. -/
theorem c3_rir_week_schedule (T : ℕ) (hT : 2 ≤ T) :
    getRirForWeek T T = 4 ∧
    (∀ w, 1 ≤ w → w < T →
      getRirForWeek w T =
        (if ((w : ℚ) - 1) / ((T : ℚ) - 1) < 1/4 then 3
         else if ((w : ℚ) - 1) / ((T : ℚ) - 1) < 1/2 then 2
         else if ((w : ℚ) - 1) / ((T : ℚ) - 1) < 3/4 then 1 else 0)) ∧
    (∀ w w', 1 ≤ w → w ≤ w' → w' < T →
      getRirForWeek w' T ≤ getRirForWeek w T) := by
  refine ⟨by simp [getRirForWeek], ?_, ?_⟩
  · intro w _ hw
    have hne : w ≠ T := Nat.ne_of_lt hw
    simp [getRirForWeek, hne]
  · intro w w' h1 hle h2
    have hw : w ≠ T := by omega
    have hw' : w' ≠ T := Nat.ne_of_lt h2
    have hTpos : (0 : ℚ) < (T : ℚ) - 1 := by
      have : (2 : ℚ) ≤ (T : ℚ) := by exact_mod_cast hT
      linarith
    have hnum : (w : ℚ) - 1 ≤ (w' : ℚ) - 1 := by
      have : (w : ℚ) ≤ (w' : ℚ) := by exact_mod_cast hle
      linarith
    have hmono : ((w : ℚ) - 1) / ((T : ℚ) - 1) ≤
        ((w' : ℚ) - 1) / ((T : ℚ) - 1) := by gcongr
    simp only [getRirForWeek, hw, hw', if_false, if_neg hw, if_neg hw']
    exact rirBucket_antitone hmono

/-- C3 witness: a 4-week mesocycle. -/
theorem c3_witness :
    getRirForWeek 4 4 = 4 ∧ getRirForWeek 3 4 ≤ getRirForWeek 2 4 := by
  obtain ⟨h1, _, h3⟩ := c3_rir_week_schedule 4 (by decide)
  exact ⟨h1, h3 2 3 (by decide) (by decide) (by decide)⟩

/-! ## C6 (code_bug) -/

/-- C6: the claim (and the spec) requires a prompt whenever weight,
reps or RIR is absent. The program's absent-RIR marker is the empty
string: `addSet` creates sets with `rir: ''` and the rep/RIR input
parser writes `''` when no RIR is typed; `null` is never produced by
the app. The guard `completedSet.rir === null` therefore misses every
actually-absent RIR: at weight 100, reps 8, absent RIR (`''`), target
RIR 3 and increment 5 the code coerces `''` to 0, computes `diff = -3`
and suggests decreasing to 95 instead of prompting, contradicting the
guard's own message ("Enter weight, reps, and RIR to get a
recommendation."). The prompt is returned only for the never-written
`null`; a present RIR of 5 behaves per the claim (increase to 105). -/
theorem c6_absent_rir_bug :
    generateIntraWorkoutRecommendation 5 ⟨100, 8, RirField.empty⟩ benchEntry =
      .decreaseTo 95 ∧
    generateIntraWorkoutRecommendation 5 ⟨100, 8, RirField.null⟩ benchEntry =
      .promptComplete ∧
    generateIntraWorkoutRecommendation 5 ⟨100, 8, RirField.num 5⟩ benchEntry =
      .increaseTo 105 := by
  refine ⟨?_, ?_, ?_⟩
  · unfold generateIntraWorkoutRecommendation
    rw [if_neg (by decide)]
    norm_num [benchEntry, toPlanEntry, benchPress, effTargetRIR,
      RirField.toNumber]
  · unfold generateIntraWorkoutRecommendation
    rw [if_pos (by decide)]
  · unfold generateIntraWorkoutRecommendation
    rw [if_neg (by decide)]
    norm_num [benchEntry, toPlanEntry, benchPress, effTargetRIR,
      RirField.toNumber]

/-! ## C7 (confirmed) -/

/-- `adjustExercise` changes an entry exactly when its set target is
above the floor of 2. -/
theorem adjustExercise_ne_iff (e : ExercisePlanEntry) :
    adjustExercise e ≠ e ↔ 2 < e.targetSets := by
  unfold adjustExercise
  constructor
  · intro h
    by_contra hle
    exact h (if_neg hle)
  · intro h heq
    rw [if_pos h] at heq
    have := congrArg ExercisePlanEntry.targetSets heq
    simp only at this
    omega

/-- C7: when `sleepHours < 6` or `stressScore ≥ 7`, every exercise of
the day has its `targetSets` decremented by 1 unless that would drop it
below the floor of 2 (entries at 2 or fewer sets are untouched);
otherwise no mutation occurs; the returned flag is true exactly when
at least one exercise was changed. -/
theorem c7_recovery_adjustment (sleep : ℚ) (stress : ℤ) (day : DayWorkout) :
    ((sleep < 6 ∨ 7 ≤ stress) →
      (adjustWorkoutForRecovery sleep stress day).1.name = day.name ∧
      ∀ i : ℕ, ∀ e : ExercisePlanEntry, day.exercises.get? i = some e →
        (adjustWorkoutForRecovery sleep stress day).1.exercises.get? i =
          some (if 2 < e.targetSets
            then { e with targetSets := e.targetSets - 1 } else e)) ∧
    (¬ (sleep < 6 ∨ 7 ≤ stress) →
      adjustWorkoutForRecovery sleep stress day = (day, false)) ∧
    ((adjustWorkoutForRecovery sleep stress day).2 = true ↔
      ((sleep < 6 ∨ 7 ≤ stress) ∧
        ∃ e ∈ day.exercises, adjustExercise e ≠ e)) := by
  by_cases h : sleep < 6 ∨ 7 ≤ stress
  · refine ⟨fun _ => ⟨?_, ?_⟩, fun hn => absurd h hn, ?_⟩
    · unfold adjustWorkoutForRecovery
      rw [if_pos h]
    · intro i e he
      unfold adjustWorkoutForRecovery
      rw [if_pos h]
      simp only [List.get?_map, he, Option.map_some']
      unfold adjustExercise
      rfl
    · unfold adjustWorkoutForRecovery
      rw [if_pos h]
      simp only [List.any_eq_true, decide_eq_true_eq]
      constructor
      · rintro ⟨e, hmem, hgt⟩
        exact ⟨h, e, hmem, (adjustExercise_ne_iff e).mpr hgt⟩
      · rintro ⟨_, e, hmem, hne⟩
        exact ⟨e, hmem, (adjustExercise_ne_iff e).mp hne⟩
  · refine ⟨fun hc => absurd hc h, fun _ => ?_, ?_⟩
    · unfold adjustWorkoutForRecovery
      rw [if_neg h]
    · unfold adjustWorkoutForRecovery
      rw [if_neg h]
      simp [h]

/-- C7 witness: poor sleep (5 hours) adjusts a day holding one
3-set exercise; its target drops to 2 and the flag is true. -/
theorem c7_witness :
    (adjustWorkoutForRecovery 5 3
      ⟨"Push", [benchEntry], false⟩).1.exercises.get? 0 =
        some { benchEntry with targetSets := 2 } ∧
    (adjustWorkoutForRecovery 5 3 ⟨"Push", [benchEntry], false⟩).2 = true := by
  obtain ⟨h1, _, h3⟩ := c7_recovery_adjustment 5 3 ⟨"Push", [benchEntry], false⟩
  have hcond : (5 : ℚ) < 6 ∨ (7 : ℤ) ≤ 3 := Or.inl (by norm_num)
  constructor
  · have := (h1 hcond).2 0 benchEntry rfl
    rw [this]
    norm_num [benchEntry, toPlanEntry, benchPress]
  · exact h3.mpr ⟨hcond, benchEntry, by simp,
      (adjustExercise_ne_iff benchEntry).mpr (by decide)⟩

/-! ## C10 (confirmed) -/

/-- C10: a target RIR of 0 is treated exactly like an unset target RIR
by both `recommend` and `advance`: the effective target defaults to 3
in both cases, so the two operations agree on otherwise-identical
inputs. -/
theorem c10_zero_rir_defaults (inc : ℚ) (s : LoggedSet)
    (cEx nEx ex : ExercisePlanEntry) :
    effTargetRIR (some 0) = 3 ∧ effTargetRIR none = 3 ∧
    generateIntraWorkoutRecommendation inc s { ex with targetRIR := some 0 } =
      generateIntraWorkoutRecommendation inc s { ex with targetRIR := none } ∧
    progressExercise inc { cEx with targetRIR := some 0 } nEx =
      progressExercise inc { cEx with targetRIR := none } nEx := by
  exact ⟨rfl, rfl, rfl, rfl⟩

/-! ## Generator invariants -/

/-- Every exercise entry the selector can produce: `toPlanEntry` of some
catalog-listed exercise surviving the shuffled pool. -/
def EntryFromShuffle (shuffle : Shuffle) (catalog : List CatalogExercise)
    (e : ExercisePlanEntry) : Prop :=
  ∃ n l ex, (∀ x ∈ l, x ∈ catalog) ∧ ex ∈ shuffle n l ∧ e = toPlanEntry ex

theorem entryFromShuffle_select {shuffle : Shuffle} {n : ℕ}
    {catalog : List CatalogExercise} {m : String} {filt : List String}
    {ty : String} {c : ℕ} {e : ExercisePlanEntry}
    (he : e ∈ selectExercisesForMuscleGroup shuffle n catalog m filt ty c) :
    EntryFromShuffle shuffle catalog e := by
  unfold selectExercisesForMuscleGroup at he
  obtain ⟨ex, hex, rfl⟩ := List.mem_map.mp he
  exact ⟨n, _, ex, fun x hx => List.mem_of_mem_filter hx,
    List.mem_of_mem_take hex, rfl⟩

theorem secondaryLoop_mem {shuffle : Shuffle} {catalog : List CatalogExercise}
    {filt : List String} {m : String} :
    ∀ (fuel : ℕ) (vol : VolumeMap) (n : ℕ) (e : ExercisePlanEntry),
      e ∈ (secondaryLoop shuffle catalog filt m fuel vol n).1 →
      EntryFromShuffle shuffle catalog e := by
  intro fuel
  induction fuel with
  | zero => intro vol n e he; simp [secondaryLoop] at he
  | succ fuel ih =>
      intro vol n e he
      simp only [secondaryLoop] at he
      by_cases h1 : volPos vol m
      · rw [if_pos h1] at he
        by_cases h2 : selectExercisesForMuscleGroup shuffle n catalog m filt
            "Secondary" 1 = []
        · rw [if_pos h2] at he
          simp at he
        · rw [if_neg h2] at he
          simp only [List.mem_append] at he
          rcases he with hsel | hrest
          · exact entryFromShuffle_select hsel
          · exact ih _ _ _ hrest
      · rw [if_neg h1] at he
        simp at he

theorem primaryPass_mem {shuffle : Shuffle} {catalog : List CatalogExercise}
    {filt : List String} :
    ∀ (ms : List String) (vol : VolumeMap) (n : ℕ) (e : ExercisePlanEntry),
      e ∈ (primaryPass shuffle catalog filt ms vol n).1 →
      EntryFromShuffle shuffle catalog e := by
  intro ms
  induction ms with
  | nil => intro vol n e he; simp [primaryPass] at he
  | cons m ms ih =>
      intro vol n e he
      simp only [primaryPass] at he
      by_cases h1 : volPos vol m
      · rw [if_pos h1] at he
        by_cases h2 : selectExercisesForMuscleGroup shuffle n catalog m filt
            "Primary" 1 = []
        · rw [if_pos h2] at he
          exact ih _ _ _ he
        · rw [if_neg h2] at he
          simp only [List.mem_append] at he
          rcases he with hsel | hrest
          · exact entryFromShuffle_select hsel
          · exact ih _ _ _ hrest
      · rw [if_neg h1] at he
        exact ih _ _ _ he

theorem secondaryPass_mem {shuffle : Shuffle} {catalog : List CatalogExercise}
    {filt : List String} :
    ∀ (ms : List String) (vol : VolumeMap) (n : ℕ) (e : ExercisePlanEntry),
      e ∈ (secondaryPass shuffle catalog filt ms vol n).1 →
      EntryFromShuffle shuffle catalog e := by
  intro ms
  induction ms with
  | nil => intro vol n e he; simp [secondaryPass] at he
  | cons m ms ih =>
      intro vol n e he
      simp only [secondaryPass] at he
      simp only [List.mem_append] at he
      rcases he with hloop | hrest
      · exact secondaryLoop_mem _ _ _ _ hloop
      · exact ih _ _ _ hrest

theorem buildDays_mem {shuffle : Shuffle} {catalog : List CatalogExercise}
    {filt : List String} :
    ∀ (dayPairs : List (String × List String)) (vol : VolumeMap) (n : ℕ)
      (d : DayWorkout) (e : ExercisePlanEntry),
      d ∈ buildDays shuffle catalog filt dayPairs vol n →
      e ∈ d.exercises →
      EntryFromShuffle shuffle catalog e := by
  intro dayPairs
  induction dayPairs with
  | nil => intro vol n d e hd _; simp [buildDays] at hd
  | cons p rest ih =>
      intro vol n d e hd he
      simp only [buildDays, List.mem_cons] at hd
      rcases hd with rfl | hd
      · simp only [buildDay, List.mem_append] at he
        rcases he with hp | hs
        · exact primaryPass_mem _ _ _ _ hp
        · exact secondaryPass_mem _ _ _ _ hs
      · exact ih _ _ _ _ hd he

theorem buildWeekTemplate_mem {shuffle : Shuffle} {split : Split}
    {vol : VolumeMap} {catalog : List CatalogExercise} {style : String}
    {d : DayWorkout} {e : ExercisePlanEntry}
    (hd : d ∈ buildWeekTemplate shuffle split vol catalog style)
    (he : e ∈ d.exercises) : EntryFromShuffle shuffle catalog e :=
  buildDays_mem _ _ _ _ _ hd he

/-- The day labels of the built template are exactly the split's day
labels, in order. -/
theorem buildDays_labels {shuffle : Shuffle} {catalog : List CatalogExercise}
    {filt : List String} :
    ∀ (dayPairs : List (String × List String)) (vol : VolumeMap) (n : ℕ),
      (buildDays shuffle catalog filt dayPairs vol n).map
        (fun d => d.name) = dayPairs.map Prod.fst := by
  intro dayPairs
  induction dayPairs with
  | nil => intro vol n; rfl
  | cons p rest ih =>
      intro vol n
      simp only [buildDays, List.map_cons]
      exact congrArg _ (ih _ _)

/-! ## Mesocycle access lemmas -/

theorem week_createFullMesocycle (tpl : List DayWorkout) (T wi : ℕ)
    (hwi : wi < T) :
    (createFullMesocycle tpl T).get? wi =
      some (tpl.map (mesocycleDay (decide (wi + 1 = T))
        (getRirForWeek (wi + 1) T))) := by
  unfold createFullMesocycle
  rw [List.get?_map, List.get?_range hwi]
  rfl

theorem getEx_createFullMesocycle (tpl : List DayWorkout) (T wi di ei : ℕ)
    (hwi : wi < T) :
    getEx (createFullMesocycle tpl T) wi di ei =
      ((tpl.get? di).bind (fun d => d.exercises.get? ei)).map
        (mesocycleExercise (decide (wi + 1 = T)) (getRirForWeek (wi + 1) T)) := by
  unfold getEx
  rw [week_createFullMesocycle tpl T wi hwi]
  simp only [Option.some_bind]
  rw [List.get?_map]
  cases htpl : tpl.get? di with
  | none => rfl
  | some d =>
      simp only [Option.map_some', Option.some_bind, mesocycleDay]
      rw [List.get?_map]

theorem getEx_createFullMesocycle_none (tpl : List DayWorkout)
    (T wi di ei : ℕ) (hwi : T ≤ wi) :
    getEx (createFullMesocycle tpl T) wi di ei = none := by
  unfold getEx createFullMesocycle
  rw [List.get?_map, List.get?_eq_none.mpr (by simpa using hwi)]
  rfl

/-! ## C4 (confirmed) -/

/-- C4: in every generated mesocycle, every week has the same ordered
day labels as week 1 and, per day, the same ordered exercise
identifiers; the plan has exactly `durationWeeks` weeks. (Week `wi` is
zero-indexed: week `wi + 1` of the plan.) -/
theorem c4_week_structure (shuffle : Shuffle) (sel : UserSelections)
    (catalog : List CatalogExercise) (T wi : ℕ) (hwi : wi < T) :
    (generateNewMesocycle shuffle sel catalog T).length = T ∧
    ((generateNewMesocycle shuffle sel catalog T).get? wi).map weekDayLabels =
      ((generateNewMesocycle shuffle sel catalog T).get? 0).map weekDayLabels ∧
    ((generateNewMesocycle shuffle sel catalog T).get? wi).map weekDayExerciseIds =
      ((generateNewMesocycle shuffle sel catalog T).get? 0).map weekDayExerciseIds := by
  have h0 : 0 < T := by omega
  simp only [generateNewMesocycle]
  refine ⟨?_, ?_, ?_⟩
  · simp [createFullMesocycle]
  · rw [week_createFullMesocycle _ _ _ hwi, week_createFullMesocycle _ _ _ h0]
    simp [weekDayLabels, List.map_map, mesocycleDay]
  · rw [week_createFullMesocycle _ _ _ hwi, week_createFullMesocycle _ _ _ h0]
    simp [weekDayExerciseIds, List.map_map, mesocycleDay, mesocycleExercise]

/-- C4 witness: a 3-week plan for the concrete gym profile; week 3
matches week 1's structure. -/
theorem c4_witness :
    (generateNewMesocycle idShuffle gymUser [benchPress] 3).length = 3 ∧
    ((generateNewMesocycle idShuffle gymUser [benchPress] 3).get? 2).map
        weekDayLabels =
      ((generateNewMesocycle idShuffle gymUser [benchPress] 3).get? 0).map
        weekDayLabels ∧
    ((generateNewMesocycle idShuffle gymUser [benchPress] 3).get? 2).map
        weekDayExerciseIds =
      ((generateNewMesocycle idShuffle gymUser [benchPress] 3).get? 0).map
        weekDayExerciseIds :=
  c4_week_structure idShuffle gymUser [benchPress] 3 2 (by norm_num)

/-! ## C5 (corrected) -/

/-- C5 counterexample. For `durationWeeks = 1` the single generated
week is itself the deload week: its exercise has `targetSets = 2`
(half of the template's 3, rounded up), while the claimed value
`ceil(week1Sets / 2)` — computed from the same (deload) week-1 entry —
is `ceil(2 / 2) = 1 ≠ 2`. -/
theorem c5_counterexample :
    getEx (generateNewMesocycle idShuffle gymUser [benchPress] 1) 0 0 0 =
      some (mesocycleExercise true (getRirForWeek 1 1) (toPlanEntry benchPress)) ∧
    (mesocycleExercise true (getRirForWeek 1 1)
      (toPlanEntry benchPress)).targetSets = 2 ∧
    ((mesocycleExercise true (getRirForWeek 1 1)
      (toPlanEntry benchPress)).targetSets + 1) / 2 = 1 :=
  ⟨by decide, by decide, by decide⟩

/-- C5 (amended): for every generated mesocycle with
`durationWeeks ≥ 2`, every exercise of the final (deload) week has
`targetSets = ceil(week1Sets / 2) ≥ 1`, where `week1Sets` is the same
exercise's `targetSets` in week 1. (For `durationWeeks = 1` the single
week is already deloaded and the relation to week 1 fails.) -/
theorem c5_deload_half (shuffle : Shuffle) (sel : UserSelections)
    (catalog : List CatalogExercise) (T di ei : ℕ) (hT : 2 ≤ T)
    (eD e1 : ExercisePlanEntry)
    (hD : getEx (generateNewMesocycle shuffle sel catalog T) (T - 1) di ei =
      some eD)
    (h1 : getEx (generateNewMesocycle shuffle sel catalog T) 0 di ei =
      some e1) :
    eD.targetSets = (e1.targetSets + 1) / 2 ∧ 1 ≤ eD.targetSets := by
  simp only [generateNewMesocycle] at hD h1
  rw [getEx_createFullMesocycle _ _ _ _ _ (by omega)] at hD
  rw [getEx_createFullMesocycle _ _ _ _ _ (by omega)] at h1
  have hdec1 : decide (T - 1 + 1 = T) = true := by
    simp only [decide_eq_true_eq]
    omega
  have hdec0 : decide (0 + 1 = T) = false := by
    simp only [decide_eq_false_iff_not]
    omega
  rw [hdec1] at hD
  rw [hdec0] at h1
  obtain ⟨t0, hbase0, heD⟩ := Option.map_eq_some'.mp hD
  obtain ⟨t1, hbase1, he1⟩ := Option.map_eq_some'.mp h1
  rw [hbase0] at hbase1
  have ht01 : t0 = t1 := Option.some.inj hbase1
  subst ht01
  obtain ⟨d, hd, ht0⟩ := Option.bind_eq_some.mp hbase0
  have hts : t0.targetSets = 3 := by
    obtain ⟨n, l, ex, _, _, rfl⟩ :=
      buildWeekTemplate_mem (List.get?_mem hd) (List.get?_mem ht0)
    rfl
  subst heD he1
  simp [mesocycleExercise, hts]

/-- C5 witness: the amended theorem at a 2-week plan; the deload-week
entry has 2 sets, half of the week-1 entry's 3 rounded up. -/
theorem c5_witness :
    (mesocycleExercise true (getRirForWeek 2 2)
      (toPlanEntry benchPress)).targetSets =
      ((mesocycleExercise false (getRirForWeek 1 2)
        (toPlanEntry benchPress)).targetSets + 1) / 2 ∧
    1 ≤ (mesocycleExercise true (getRirForWeek 2 2)
      (toPlanEntry benchPress)).targetSets := by
  have hD : getEx (generateNewMesocycle idShuffle gymUser [benchPress] 2)
      (2 - 1) 0 0 =
      some (mesocycleExercise true (getRirForWeek 2 2)
        (toPlanEntry benchPress)) := by
    simp only [generateNewMesocycle]
    rw [getEx_createFullMesocycle _ _ _ _ _ (by norm_num)]
    rfl
  have h1 : getEx (generateNewMesocycle idShuffle gymUser [benchPress] 2)
      0 0 0 =
      some (mesocycleExercise false (getRirForWeek 1 2)
        (toPlanEntry benchPress)) := by
    simp only [generateNewMesocycle]
    rw [getEx_createFullMesocycle _ _ _ _ _ (by norm_num)]
    rfl
  exact c5_deload_half idShuffle gymUser [benchPress] 2 0 0 (by norm_num)
    _ _ hD h1

/-! ## C8 (corrected) -/

/-- C8 counterexample. The claim says the identifier derivation
lowercases the name. The generator maps the catalog name
"Bench Press" to `ex_Bench_Press` (case preserved), while the spec's
lowercasing derivation yields `ex_bench_press`; the two differ. -/
theorem c8_counterexample :
    (getEx (generateNewMesocycle idShuffle gymUser [benchPress] 2) 1 0 0).map
      (fun e => e.exerciseId) = some "ex_Bench_Press" ∧
    specLowercaseId "Bench Press" = "ex_bench_press" ∧
    ("ex_Bench_Press" : String) ≠ "ex_bench_press" := by
  refine ⟨by decide, by decide, by decide⟩

/-- C8 (amended): every exercise entry of a generated plan has
`exerciseId = "ex_" ++ name` with whitespace runs replaced by single
underscores and case preserved (the name is NOT lowercased); the
derivation is a pure function of the name, hence reproducible; and
(whenever the random sort permutes its pool) the entry's name is a
catalog exercise name. -/
theorem c8_exercise_id_derivation (shuffle : Shuffle) (sel : UserSelections)
    (catalog : List CatalogExercise) (T wi di ei : ℕ) (e : ExercisePlanEntry)
    (hs : ∀ n l x, x ∈ shuffle n l → x ∈ l)
    (he : getEx (generateNewMesocycle shuffle sel catalog T) wi di ei = some e) :
    e.exerciseId = canonicalId e.name ∧
    e.name ∈ catalog.map CatalogExercise.name := by
  simp only [generateNewMesocycle] at he
  by_cases hwi : wi < T
  · rw [getEx_createFullMesocycle _ _ _ _ _ hwi] at he
    obtain ⟨t0, hbase, rfl⟩ := Option.map_eq_some'.mp he
    obtain ⟨d, hd, ht0⟩ := Option.bind_eq_some.mp hbase
    obtain ⟨n, l, ex, hl, hex, rfl⟩ :=
      buildWeekTemplate_mem (List.get?_mem hd) (List.get?_mem ht0)
    have hcat : ex ∈ catalog := hl ex (hs n l ex hex)
    exact ⟨rfl, List.mem_map.mpr ⟨ex, hcat, rfl⟩⟩
  · rw [getEx_createFullMesocycle_none _ _ _ _ _ (by omega)] at he
    exact absurd he (by simp)

/-- C8 witness: the amended theorem at the one-exercise catalog; the
week-1 entry carries the case-preserving identifier of its catalog
name. -/
theorem c8_witness :
    (mesocycleExercise false (getRirForWeek 1 4)
      (toPlanEntry benchPress)).exerciseId =
      canonicalId (mesocycleExercise false (getRirForWeek 1 4)
        (toPlanEntry benchPress)).name ∧
    (mesocycleExercise false (getRirForWeek 1 4)
      (toPlanEntry benchPress)).name ∈
      ([benchPress].map CatalogExercise.name) := by
  have he : getEx (generateNewMesocycle idShuffle gymUser [benchPress] 4)
      0 0 0 =
      some (mesocycleExercise false (getRirForWeek 1 4)
        (toPlanEntry benchPress)) := by
    simp only [generateNewMesocycle]
    rw [getEx_createFullMesocycle _ _ _ _ _ (by norm_num)]
    rfl
  exact c8_exercise_id_derivation idShuffle gymUser [benchPress] 4 0 0 0 _
    (fun _ _ _ h => h) he

/-! ## C9 (corrected) -/

/-- C9 counterexample. The concrete profile trains 5 days/week; the
claim says each generated week contains `daysPerWeek = 5` day workouts.
The generated weeks contain exactly 3 (Push, Pull, Legs): the split is
not repeated to fill the week. -/
theorem c9_counterexample :
    gymUser.daysPerWeek = 5 ∧
    ((generateNewMesocycle idShuffle gymUser [benchPress] 4).get? 0).map
      (fun w => w.length) = some 3 ∧
    ((generateNewMesocycle idShuffle gymUser [benchPress] 4).get? 0).map
      weekDayLabels = some ["Push", "Pull", "Legs"] :=
  ⟨by decide, by decide, by decide⟩

/-- C9 (amended): for every `daysPerWeek ≥ 5` the generator uses the
3-day push/pull/legs split, and every week of the resulting mesocycle
contains exactly the three day workouts Push, Pull, Legs in that order
(the split is not repeated to reach `daysPerWeek` workouts). -/
theorem c9_ppl_three_days (shuffle : Shuffle) (sel : UserSelections)
    (catalog : List CatalogExercise) (T wi : ℕ)
    (h5 : 5 ≤ sel.daysPerWeek) (hwi : wi < T) :
    ((generateNewMesocycle shuffle sel catalog T).get? wi).map weekDayLabels =
      some ["Push", "Pull", "Legs"] := by
  simp only [generateNewMesocycle]
  rw [week_createFullMesocycle _ _ _ hwi]
  simp only [Option.map_some', weekDayLabels, List.map_map]
  have hcomp : (fun d => DayWorkout.name d) ∘
      mesocycleDay (decide (wi + 1 = T)) (getRirForWeek (wi + 1) T) =
      fun d : DayWorkout => d.name := rfl
  rw [hcomp]
  have hsplit : getSplitForDays sel.daysPerWeek =
      { name := "Push/Pull/Legs",
        days := [("Push", ["chest", "shoulders", "triceps"]),
                 ("Pull", ["back", "biceps"]),
                 ("Legs", ["quads", "hamstrings", "core"])],
        muscles := allMuscles } := by
    unfold getSplitForDays
    rw [if_neg (by omega), if_neg (by omega)]
  unfold buildWeekTemplate
  rw [hsplit, buildDays_labels]
  rfl

/-- C9 witness: the amended theorem for the 5-day profile on a 4-week
plan. -/
theorem c9_witness :
    ((generateNewMesocycle idShuffle gymUser [benchPress] 4).get? 0).map
      weekDayLabels = some ["Push", "Pull", "Legs"] :=
  c9_ppl_three_days idShuffle gymUser [benchPress] 4 0 (by decide)
    (by norm_num)

end Progression
